import Mathlib

/-!
Verification of the secure-file-validator core (src/index.js) against its
natural-language specification.

Shallow embedding conventions:
* A Node `Buffer` is a `List Nat` of byte values (every entry `< 256` where that
  matters; the bound appears as an explicit hypothesis when a proof needs it).
* JavaScript strings derived from a buffer (`buffer.toString()`) are modelled at
  the byte level: substring and regex tests on the decoded text are byte-list
  tests.  All patterns in the source are pure ASCII, and Node's UTF-8 decoding
  maps ASCII bytes to themselves, so byte-level containment is faithful for them.
* The `/i` regular-expression flag is modelled by lowercasing the searched text
  with the ASCII case map and writing the pattern in lowercase.
* Fallible operations (`fs.stat`, `fs.readFile`) are modelled as
  `Except String _` inputs; the `try`/`catch` blocks of the source become the
  corresponding `match` on those inputs.
* File sizes and byte counts are exact naturals.  `Math.round(m / 1048576)`
  is `(m + 524288) / 1048576` in natural division (exact for every `m < 2^53`,
  where JavaScript doubles represent the quotient exactly).
-/

namespace SecureFileValidator

/-- ASCII byte values of a Lean string literal (used only for ASCII text). -/
def asciiBytes (s : String) : List Nat := s.data.map Char.toNat

/-- ASCII lower-casing of a single byte (A-Z ↦ a-z, all else fixed). -/
def toLowerByte (b : Nat) : Nat := if 65 ≤ b ∧ b ≤ 90 then b + 32 else b

/-- Lower-case an entire byte string. -/
def lowerBytes (t : List Nat) : List Nat := t.map toLowerByte

/-- ASCII whitespace bytes recognised by `String.prototype.trim` and `\s`
(tab, LF, VT, FF, CR, space).  The searched texts are ASCII, so the
non-ASCII whitespace code points of JavaScript never occur at byte level
inside the patterns used here. -/
def isWsByte (b : Nat) : Bool := b = 32 || (9 ≤ b && b ≤ 13)

/-- `String.prototype.trim`: strip leading and trailing whitespace. -/
def jsTrim (t : List Nat) : List Nat :=
  ((t.dropWhile isWsByte).reverse.dropWhile isWsByte).reverse

/-- `String.prototype.includes(pat)`: `pat` occurs contiguously in `t`. -/
def containsSub (t pat : List Nat) : Bool :=
  (List.range (t.length + 1)).any fun i => pat.isPrefixOf (t.drop i)

/-- One element of a (tiny) regular expression: a literal byte, a single byte
from a class, or zero-or-more bytes from a class.  This is exactly the
expressive power the regexes of src/index.js use. -/
inductive RElem where
  | lit (b : Nat)
  | cls (p : Nat → Bool)
  | starCls (p : Nat → Bool)

/-- Does the pattern match some prefix of the text? (regex anchored at the
current position).  `starCls p` consumes some number `n` of leading bytes all
satisfying `p` — i.e. at most the maximal `p`-prefix — and the rest of the
pattern matches what remains, exactly the backtracking semantics of `[…]*`. -/
def matchElems : List RElem → List Nat → Bool
  | [], _ => true
  | RElem.lit b :: ps, cs =>
      match cs with
      | c :: cs' => decide (c = b) && matchElems ps cs'
      | [] => false
  | RElem.cls p :: ps, cs =>
      match cs with
      | c :: cs' => p c && matchElems ps cs'
      | [] => false
  | RElem.starCls p :: ps, cs =>
      (List.range ((cs.takeWhile p).length + 1)).any fun n => matchElems ps (cs.drop n)

/-- `RegExp.prototype.test`: the pattern matches starting at some position. -/
def regexTest (ps : List RElem) : List Nat → Bool
  | [] => matchElems ps []
  | c :: cs => matchElems ps (c :: cs) || regexTest ps cs

/-- A pattern rule of the source: the printed form of the regex literal
(JavaScript stringifies a regex as `/source/flags` in the failure message),
whether the `/i` flag is present, and the compiled pattern. -/
structure PatternRule where
  display : String
  ci : Bool
  elems : List RElem

/-- Run a rule on a byte text; the `/i` flag lowercases the text first. -/
def ruleTest (r : PatternRule) (t : List Nat) : Bool :=
  regexTest r.elems (if r.ci then lowerBytes t else t)

/-- Literal-byte pattern from an ASCII string. -/
def lits (s : String) : List RElem := (asciiBytes s).map RElem.lit

/-! ### The pattern corpora of src/index.js

Each rule's `display` is the JavaScript stringification of the regex literal,
which is what the source interpolates into failure messages.  Rules with the
`/i` flag carry their literal bytes in lowercase because `ruleTest` lowercases
the searched text. -/

/-- `/<script/i` -/
def genericRuleScript : PatternRule := ⟨"/<script/i", true, lits "<script"⟩

/-- `/javascript:/i` -/
def genericRuleJsProto : PatternRule := ⟨"/javascript:/i", true, lits "javascript:"⟩

/-- `/<\?php/i` -/
def genericRulePhp : PatternRule := ⟨"/<\\?php/i", true, lits "<?php"⟩

/-- `/eval\(/i` -/
def genericRuleEval : PatternRule := ⟨"/eval\\(/i", true, lits "eval("⟩

/-- `/exec\(/i` -/
def genericRuleExec : PatternRule := ⟨"/exec\\(/i", true, lits "exec("⟩

/-- `/system\(/i` -/
def genericRuleSystem : PatternRule := ⟨"/system\\(/i", true, lits "system("⟩

/-- `/function\s*\(/i` -/
def genericRuleFunction : PatternRule :=
  ⟨"/function\\s*\\(/i", true, lits "function" ++ [RElem.starCls isWsByte, RElem.lit 40]⟩

/-- `/setTimeout/i` -/
def genericRuleSetTimeout : PatternRule := ⟨"/setTimeout/i", true, lits "settimeout"⟩

/-- `/setInterval/i` -/
def genericRuleSetInterval : PatternRule := ⟨"/setInterval/i", true, lits "setinterval"⟩

/-- `/onload/i` -/
def genericRuleOnload : PatternRule := ⟨"/onload/i", true, lits "onload"⟩

/-- `/onerror/i` -/
def genericRuleOnerror : PatternRule := ⟨"/onerror/i", true, lits "onerror"⟩

/-- `/ActiveXObject/i` -/
def genericRuleActiveX : PatternRule := ⟨"/ActiveXObject/i", true, lits "activexobject"⟩

/-- The `suspiciousPatterns` array of src/index.js (lines 60-73). -/
def suspiciousPatterns : List PatternRule :=
  [genericRuleScript, genericRuleJsProto, genericRulePhp, genericRuleEval,
   genericRuleExec, genericRuleSystem, genericRuleFunction, genericRuleSetTimeout,
   genericRuleSetInterval, genericRuleOnload, genericRuleOnerror, genericRuleActiveX]

/-- `/xlink:href/i` -/
def svgRuleXlink : PatternRule := ⟨"/xlink:href/i", true, lits "xlink:href"⟩

/-- `/[^a-z]href=/i`; under `/i` the negated class excludes letters of either
case, which on lowercased text is exactly "not a lowercase letter". -/
def svgRuleHref : PatternRule :=
  ⟨"/[^a-z]href=/i", true,
   RElem.cls (fun b => !(97 ≤ b && b ≤ 122)) :: lits "href="⟩

/-- `/data:/i` -/
def svgRuleData : PatternRule := ⟨"/data:/i", true, lits "data:"⟩

/-- `/import/i` -/
def svgRuleImport : PatternRule := ⟨"/import/i", true, lits "import"⟩

/-- `/foreignObject/i` -/
def svgRuleForeignObject : PatternRule := ⟨"/foreignObject/i", true, lits "foreignobject"⟩

/-- `/onload/i` -/
def svgRuleOnload : PatternRule := ⟨"/onload/i", true, lits "onload"⟩

/-- `/onclick/i` -/
def svgRuleOnclick : PatternRule := ⟨"/onclick/i", true, lits "onclick"⟩

/-- `/onmouseover/i` -/
def svgRuleOnmouseover : PatternRule := ⟨"/onmouseover/i", true, lits "onmouseover"⟩

/-- `/<!ENTITY/i` -/
def svgRuleEntity : PatternRule := ⟨"/<!ENTITY/i", true, lits "<!entity"⟩

/-- `/<!DOCTYPE/i` -/
def svgRuleDoctype : PatternRule := ⟨"/<!DOCTYPE/i", true, lits "<!doctype"⟩

/-- The `svgSuspiciousPatterns` array of src/index.js (lines 138-149). -/
def svgSuspiciousPatterns : List PatternRule :=
  [svgRuleXlink, svgRuleHref, svgRuleData, svgRuleImport, svgRuleForeignObject,
   svgRuleOnload, svgRuleOnclick, svgRuleOnmouseover, svgRuleEntity, svgRuleDoctype]

/-- A PDF rule of src/index.js: a regex plus the whitelistable identifier. -/
structure PdfPatternRule where
  pattern : PatternRule
  name : String

/-- `{ pattern: /OpenAction/, name: "OpenAction" }` — note: no `/i` flag. -/
def pdfRuleOpenAction : PdfPatternRule := ⟨⟨"/OpenAction/", false, lits "OpenAction"⟩, "OpenAction"⟩

/-- `{ pattern: /JavaScript/, name: "JavaScript" }` -/
def pdfRuleJavaScript : PdfPatternRule := ⟨⟨"/JavaScript/", false, lits "JavaScript"⟩, "JavaScript"⟩

/-- `{ pattern: /JS/, name: "JS" }` -/
def pdfRuleJS : PdfPatternRule := ⟨⟨"/JS/", false, lits "JS"⟩, "JS"⟩

/-- `{ pattern: /Launch/, name: "Launch" }` -/
def pdfRuleLaunch : PdfPatternRule := ⟨⟨"/Launch/", false, lits "Launch"⟩, "Launch"⟩

/-- `{ pattern: /EmbeddedFile/, name: "EmbeddedFile" }` -/
def pdfRuleEmbeddedFile : PdfPatternRule := ⟨⟨"/EmbeddedFile/", false, lits "EmbeddedFile"⟩, "EmbeddedFile"⟩

/-- `{ pattern: /XFA/, name: "XFA" }` -/
def pdfRuleXFA : PdfPatternRule := ⟨⟨"/XFA/", false, lits "XFA"⟩, "XFA"⟩

/-- `{ pattern: /Annots/, name: "Annots" }` -/
def pdfRuleAnnots : PdfPatternRule := ⟨⟨"/Annots/", false, lits "Annots"⟩, "Annots"⟩

/-- `{ pattern: /Metadata/, name: "Metadata" }` -/
def pdfRuleMetadata : PdfPatternRule := ⟨⟨"/Metadata/", false, lits "Metadata"⟩, "Metadata"⟩

/-- The `pdfSuspiciousPatterns` array of src/index.js (lines 164-173). -/
def pdfSuspiciousPatterns : List PdfPatternRule :=
  [pdfRuleOpenAction, pdfRuleJavaScript, pdfRuleJS, pdfRuleLaunch,
   pdfRuleEmbeddedFile, pdfRuleXFA, pdfRuleAnnots, pdfRuleMetadata]

/-- `/<svg[^>]*>/i` (the `hasSVGTag` test of src/index.js line 95). -/
def svgTagRegex : PatternRule :=
  ⟨"/<svg[^>]*>/i", true, lits "<svg" ++ [RElem.starCls (fun b => !(b = 62)), RElem.lit 62]⟩

/-! ### File signatures and the signature matcher -/

/-- `FILE_SIGNATURES.JPEG` -/
def FILE_SIGNATURES_JPEG : List (List Nat) :=
  [[0xff, 0xd8, 0xff, 0xe0], [0xff, 0xd8, 0xff, 0xe1]]

/-- `FILE_SIGNATURES.PNG` -/
def FILE_SIGNATURES_PNG : List (List Nat) := [[0x89, 0x50, 0x4e, 0x47]]

/-- `FILE_SIGNATURES.GIF` -/
def FILE_SIGNATURES_GIF : List (List Nat) := [[0x47, 0x49, 0x46, 0x38]]

/-- `FILE_SIGNATURES.PDF` -/
def FILE_SIGNATURES_PDF : List (List Nat) := [[0x25, 0x50, 0x44, 0x46]]

/-- `FILE_SIGNATURES.SVG` -/
def FILE_SIGNATURES_SVG : List (List Nat) :=
  [[0x3c, 0x3f, 0x78, 0x6d, 0x6c], [0x3c, 0x73, 0x76, 0x67]]

/-- The whole `FILE_SIGNATURES` registry. -/
def FILE_SIGNATURES : List (List (List Nat)) :=
  [FILE_SIGNATURES_JPEG, FILE_SIGNATURES_PNG, FILE_SIGNATURES_GIF,
   FILE_SIGNATURES_PDF, FILE_SIGNATURES_SVG]

/-- `signature.every((byte, index) => buffer[index] === byte)`, walking the
signature with its index.  `buffer[index]` on an out-of-range index is
`undefined` in JavaScript, modelled by `List.get?` returning `none`, and
`undefined === byte` is false. -/
def sigMatchesAux : List Nat → Nat → List Nat → Bool
  | [], _, _ => true
  | byte :: rest, i, buffer =>
      decide (buffer[i]? = some byte) && sigMatchesAux rest (i + 1) buffer

/-- One signature against the buffer (the inner callback of
`checkFileSignature`). -/
def sigMatches (buffer signature : List Nat) : Bool :=
  sigMatchesAux signature 0 buffer

/-- `checkFileSignature` of src/index.js (lines 32-36):
`signatures.some(signature => signature.every(...))`. -/
def checkFileSignature (buffer : List Nat) (signatures : List (List Nat)) : Bool :=
  signatures.any fun s => sigMatches buffer s

/-! ### Base64 round trip

`buffer.toString("base64")` followed by `Buffer.from(..., "base64")`
(src/index.js lines 54-57).  The encoder below produces exactly the padded
RFC 4648 alphabet output of `Buffer.toString("base64")`; the decoder models
`Buffer.from(s, "base64")` on such padded input ("=" ends a quad early). -/

/-- Sextet value (0-63) to base64 alphabet byte. -/
def b64CharOf (n : Nat) : Nat :=
  if n < 26 then 65 + n
  else if n < 52 then 97 + (n - 26)
  else if n < 62 then 48 + (n - 52)
  else if n = 62 then 43
  else 47

/-- Base64 alphabet byte back to its sextet value. -/
def b64ValOf (c : Nat) : Nat :=
  if 65 ≤ c ∧ c ≤ 90 then c - 65
  else if 97 ≤ c ∧ c ≤ 122 then c - 97 + 26
  else if 48 ≤ c ∧ c ≤ 57 then c - 48 + 52
  else if c = 43 then 62
  else 63

/-- `buffer.toString("base64")`: 3 bytes to 4 alphabet bytes, with `=`
(byte 61) padding for a 1- or 2-byte tail. -/
def b64encode : List Nat → List Nat
  | b1 :: b2 :: b3 :: rest =>
      b64CharOf (b1 / 4) :: b64CharOf (b1 % 4 * 16 + b2 / 16) ::
      b64CharOf (b2 % 16 * 4 + b3 / 64) :: b64CharOf (b3 % 64) :: b64encode rest
  | [b1, b2] =>
      [b64CharOf (b1 / 4), b64CharOf (b1 % 4 * 16 + b2 / 16), b64CharOf (b2 % 16 * 4), 61]
  | [b1] =>
      [b64CharOf (b1 / 4), b64CharOf (b1 % 4 * 16), 61, 61]
  | [] => []

/-- `Buffer.from(s, "base64")` on padded quads: 4 alphabet bytes back to
3 bytes; a quad ending in `=` yields 2 bytes, ending in `==` yields 1. -/
def b64decode : List Nat → List Nat
  | c1 :: c2 :: c3 :: c4 :: rest =>
      if c3 = 61 then [b64ValOf c1 * 4 + b64ValOf c2 / 16]
      else if c4 = 61 then
        [b64ValOf c1 * 4 + b64ValOf c2 / 16, b64ValOf c2 % 16 * 16 + b64ValOf c3 / 4]
      else
        (b64ValOf c1 * 4 + b64ValOf c2 / 16) ::
        (b64ValOf c2 % 16 * 16 + b64ValOf c3 / 4) ::
        (b64ValOf c3 % 4 * 64 + b64ValOf c4) :: b64decode rest
  | _ => []

/-- The `decodedContent` view of src/index.js lines 54-57:
`Buffer.from(fileBuffer.toString("base64"), "base64").toString("utf8")`,
as a byte sequence. -/
def decodedView (buffer : List Nat) : List Nat := b64decode (b64encode buffer)

/-! ### The validation pipeline -/

/-- The `{ status, message }` result object of the source. -/
structure Verdict where
  status : Bool
  message : String
deriving DecidableEq

/-- The options object: `maxSizeInBytes` (used via `?? 5*1024*1024`) and
`pdfWhitelist` (used via `|| []`); absent fields are `none`. -/
structure Options where
  maxSizeInBytes : Option Nat
  pdfWhitelist : Option (List String)

/-- The generic-pattern loop of src/index.js lines 127-134: first rule
matching the base64-round-tripped view or the direct view fails. -/
def genericScanList : List PatternRule → List Nat → Option String
  | [], _ => none
  | r :: rs, buffer =>
      if ruleTest r (decodedView buffer) || ruleTest r buffer then
        some ("Suspicious pattern detected: " ++ r.display)
      else genericScanList rs buffer

/-- The SVG-specific loop of src/index.js lines 151-158 (direct view only). -/
def svgScanList : List PatternRule → List Nat → Option String
  | [], _ => none
  | r :: rs, buffer =>
      if ruleTest r buffer then
        some ("Suspicious SVG pattern detected: " ++ r.display)
      else svgScanList rs buffer

/-- The PDF-specific loop of src/index.js lines 175-187: a rule whose name is
in the whitelist is skipped (`continue`); otherwise a match fails. -/
def pdfScanList : List PdfPatternRule → List Nat → List String → Option String
  | [], _, _ => none
  | pr :: rest, buffer, wl =>
      if pr.name ∈ wl then pdfScanList rest buffer wl
      else if ruleTest pr.pattern buffer then
        some ("Suspicious PDF pattern detected: " ++ pr.pattern.display)
      else pdfScanList rest buffer wl

/-- `hasSVGTag` (line 95): `/<svg[^>]*>/i.test(fileContent)`. -/
def hasSVGTag (buffer : List Nat) : Bool := ruleTest svgTagRegex buffer

/-- `hasValidXML` (lines 96-98): the trimmed text starts with `<?xml` or
`<svg`. -/
def hasValidXML (buffer : List Nat) : Bool :=
  (asciiBytes "<?xml").isPrefixOf (jsTrim buffer) ||
  (asciiBytes "<svg").isPrefixOf (jsTrim buffer)

/-- The `switch (fileExtension)` of src/index.js lines 77-116, producing the
final `isValidSignature` value; `none` is the `default` branch
("Unsupported file type").  The extension argument is the already lowercased
`path.extname` result, supplied by the excluded I/O collaborator. -/
def sigValidFor (buffer : List Nat) (ext : String) : Option Bool :=
  if ext = ".jpg" ∨ ext = ".jpeg" then
    some (checkFileSignature buffer FILE_SIGNATURES_JPEG)
  else if ext = ".png" then
    some (checkFileSignature buffer FILE_SIGNATURES_PNG)
  else if ext = ".gif" then
    some (checkFileSignature buffer FILE_SIGNATURES_GIF)
  else if ext = ".svg" then
    some (checkFileSignature buffer FILE_SIGNATURES_SVG ||
          (hasSVGTag buffer && hasValidXML buffer))
  else if ext = ".pdf" then
    some (checkFileSignature buffer FILE_SIGNATURES_PDF &&
          containsSub buffer (asciiBytes "%PDF-") &&
          containsSub buffer (asciiBytes "%%EOF"))
  else
    none

/-- The body of `validateFileContent` after the file has been read
(src/index.js lines 50-193): signature dispatch, generic scan, then the
SVG- or PDF-specific scan, with the source's early returns as `match`es. -/
def validateFileContentCore (buffer : List Nat) (ext : String) (opts : Options) : Verdict :=
  match sigValidFor buffer ext with
  | none => ⟨false, "Unsupported file type"⟩
  | some false => ⟨false, "Invalid file signature detected"⟩
  | some true =>
    match genericScanList suspiciousPatterns buffer with
    | some m => ⟨false, m⟩
    | none =>
      if ext = ".svg" then
        match svgScanList svgSuspiciousPatterns buffer with
        | some m => ⟨false, m⟩
        | none => ⟨true, "Content validation passed"⟩
      else if ext = ".pdf" then
        match pdfScanList pdfSuspiciousPatterns buffer (opts.pdfWhitelist.getD []) with
        | some m => ⟨false, m⟩
        | none => ⟨true, "Content validation passed"⟩
      else ⟨true, "Content validation passed"⟩

/-- `validateFileContent` with its `try`/`catch` (lines 46-200): the only
fallible step is `fs.readFile`, whose outcome is the `Except` input; a fault
is caught and becomes a failing verdict carrying the fault's description. -/
def validateFileContentJS (readResult : Except String (List Nat)) (ext : String)
    (opts : Options) : Verdict :=
  match readResult with
  | Except.error e => ⟨false, "Content validation failed: " ++ e⟩
  | Except.ok buffer => validateFileContentCore buffer ext opts

/-- `allowedExtensions` of src/index.js line 230. -/
def allowedExtensions : List String := [".jpg", ".jpeg", ".png", ".gif", ".pdf", ".svg"]

/-- The stages of `validateFile` after the size check (lines 230-240). -/
def postSizeStage (readResult : Except String (List Nat)) (ext : String)
    (opts : Options) : Verdict :=
  if ext ∈ allowedExtensions then validateFileContentJS readResult ext opts
  else ⟨false, "Invalid file extension"⟩

/-- `validateFile` (lines 211-247) with its `try`/`catch`: `fs.stat` yields
the size or a fault; size check with `Math.round`-ed limit in the message,
extension check, then content validation. -/
def validateFileJS (statResult : Except String Nat)
    (readResult : Except String (List Nat)) (ext : String) (opts : Options) : Verdict :=
  match statResult with
  | Except.error e => ⟨false, "File validation failed: " ++ e⟩
  | Except.ok size =>
    let maxSizeInBytes := opts.maxSizeInBytes.getD (5 * 1024 * 1024)
    if size > maxSizeInBytes then
      ⟨false, "File size exceeds limit of " ++
        toString ((maxSizeInBytes + 524288) / 1048576) ++ "MB"⟩
    else postSizeStage readResult ext opts

/-- `validateFile` on a successfully read file of the given size. -/
def validateFile (size : Nat) (buffer : List Nat) (ext : String) (opts : Options) : Verdict :=
  validateFileJS (Except.ok size) (Except.ok buffer) ext opts

/-- Modelled from the spec (§4.2): the generic scan applied to the direct
textual view alone.  This is the spec-side comparison point for the
refinement claim about the base64 round trip; the source's loop
(`genericScanList`) additionally tests the round-tripped view. -/
def genericScanListDirect : List PatternRule → List Nat → Option String
  | [], _ => none
  | r :: rs, buffer =>
      if ruleTest r buffer then
        some ("Suspicious pattern detected: " ++ r.display)
      else genericScanListDirect rs buffer

/-! ### Helper lemmas: the regex engine -/

/-- The `p`-prefix of a list is no longer than the list. -/
theorem takeWhileLenLe (p : Nat → Bool) (l : List Nat) :
    (l.takeWhile p).length ≤ l.length := by
  induction l with
  | nil => simp
  | cons c cs ih =>
    rw [List.takeWhile_cons]
    split
    · simpa using ih
    · simp

/-- Appending on the right can only lengthen the `p`-prefix. -/
theorem takeWhileLenAppendLe (p : Nat → Bool) (cs v : List Nat) :
    (cs.takeWhile p).length ≤ ((cs ++ v).takeWhile p).length := by
  induction cs with
  | nil => simp
  | cons c cs ih =>
    rw [List.cons_append, List.takeWhile_cons, List.takeWhile_cons]
    split
    · simpa using ih
    · simp

/-- An anchored match survives appending text on the right. -/
theorem matchElemsAppend (v : List Nat) :
    ∀ (ps : List RElem) (cs : List Nat),
      matchElems ps cs = true → matchElems ps (cs ++ v) = true := by
  intro ps
  induction ps with
  | nil => intro cs _; rfl
  | cons e ps ih =>
    intro cs h
    cases e with
    | lit b =>
      cases cs with
      | nil => simp [matchElems] at h
      | cons c cs' =>
        simp only [matchElems, Bool.and_eq_true, decide_eq_true_eq] at h
        simp only [List.cons_append, matchElems, Bool.and_eq_true, decide_eq_true_eq]
        exact ⟨h.1, ih _ h.2⟩
    | cls p =>
      cases cs with
      | nil => simp [matchElems] at h
      | cons c cs' =>
        simp only [matchElems, Bool.and_eq_true] at h
        simp only [List.cons_append, matchElems, Bool.and_eq_true]
        exact ⟨h.1, ih _ h.2⟩
    | starCls p =>
      simp only [matchElems, List.any_eq_true, List.mem_range] at h ⊢
      obtain ⟨n, hn, hm⟩ := h
      have hle : n ≤ (cs.takeWhile p).length := Nat.lt_succ_iff.mp hn
      have h1 : n ≤ cs.length := le_trans hle (takeWhileLenLe p cs)
      refine ⟨n, Nat.lt_succ_of_le (le_trans hle (takeWhileLenAppendLe p cs v)), ?_⟩
      rw [List.drop_append_of_le_length h1]
      exact ih _ hm

/-- `regexTest` searches every suffix: it succeeds iff the pattern matches
anchored at some position. -/
theorem regexTestIff (ps : List RElem) (t : List Nat) :
    regexTest ps t = true ↔ ∃ n, matchElems ps (t.drop n) = true := by
  induction t with
  | nil =>
    simp only [regexTest]
    exact ⟨fun h => ⟨0, h⟩, fun ⟨n, h⟩ => by simpa using h⟩
  | cons c cs ih =>
    simp only [regexTest, Bool.or_eq_true, ih]
    constructor
    · rintro (h | ⟨n, hn⟩)
      · exact ⟨0, h⟩
      · exact ⟨n + 1, by simpa using hn⟩
    · rintro ⟨n, hn⟩
      cases n with
      | zero => exact Or.inl (by simpa using hn)
      | succ n => exact Or.inr ⟨n, by simpa using hn⟩

/-- A found pattern is still found after appending text on the right. -/
theorem regexTestAppendRight (ps : List RElem) (t v : List Nat)
    (h : regexTest ps t = true) : regexTest ps (t ++ v) = true := by
  rw [regexTestIff] at h ⊢
  obtain ⟨n, hn⟩ := h
  have hdrop : t.drop (min n t.length) = t.drop n := by
    rcases le_total n t.length with h' | h'
    · rw [Nat.min_eq_left h']
    · rw [Nat.min_eq_right h', List.drop_eq_nil_of_le h', List.drop_eq_nil_of_le le_rfl]
  refine ⟨min n t.length, ?_⟩
  rw [List.drop_append_of_le_length (Nat.min_le_right _ _), hdrop]
  exact matchElemsAppend v ps _ hn

/-- A found pattern is still found after prepending text on the left. -/
theorem regexTestAppendLeft (ps : List RElem) (u t : List Nat)
    (h : regexTest ps t = true) : regexTest ps (u ++ t) = true := by
  induction u with
  | nil => simpa using h
  | cons c u ih =>
    rw [List.cons_append]
    simp only [regexTest, Bool.or_eq_true]
    exact Or.inr ih

/-- A rule with the `/i` flag cannot distinguish texts equal up to ASCII
case. -/
theorem ruleTestCiCongr (r : PatternRule) (hci : r.ci = true) (t t' : List Nat)
    (h : lowerBytes t = lowerBytes t') : ruleTest r t = ruleTest r t' := by
  simp [ruleTest, hci, h]

/-- Every rule test searches for presence anywhere: a match inside a larger
text is still a match. -/
theorem ruleTestInfix (r : PatternRule) (u t v : List Nat)
    (h : ruleTest r t = true) : ruleTest r (u ++ t ++ v) = true := by
  have hv : (if r.ci then lowerBytes (u ++ t ++ v) else u ++ t ++ v) =
      (if r.ci then lowerBytes u else u) ++ (if r.ci then lowerBytes t else t) ++
      (if r.ci then lowerBytes v else v) := by
    cases r.ci <;> simp [lowerBytes]
  unfold ruleTest at h ⊢
  rw [hv, List.append_assoc]
  exact regexTestAppendLeft _ _ _ (regexTestAppendRight _ _ _ h)

/-! ### Helper lemmas: the signature matcher -/

/-- The indexed walk of `signature.every((byte, index) => buffer[index] === byte)`
succeeds exactly when the signature equals the slice of the buffer starting
at the walk's base index. -/
theorem sigMatchesAuxIff :
    ∀ (s : List Nat) (i : Nat) (b : List Nat),
      sigMatchesAux s i b = true ↔ (b.drop i).take s.length = s := by
  intro s
  induction s with
  | nil => intro i b; simp [sigMatchesAux]
  | cons x xs ih =>
    intro i b
    simp only [sigMatchesAux, Bool.and_eq_true, decide_eq_true_eq, ih, List.length_cons]
    constructor
    · rintro ⟨hget, htake⟩
      obtain ⟨hi, hbi⟩ := List.getElem?_eq_some.mp hget
      rw [List.drop_eq_getElem_cons hi, List.take_succ_cons, hbi, htake]
    · intro htake
      have hi : i < b.length := by
        by_contra hle
        rw [List.drop_eq_nil_of_le (Nat.le_of_not_lt hle)] at htake
        simp at htake
      rw [List.drop_eq_getElem_cons hi, List.take_succ_cons] at htake
      injection htake with h1 h2
      exact ⟨List.getElem?_eq_some.mpr ⟨hi, h1⟩, h2⟩

/-- A single signature matches iff it is the buffer's prefix byte-for-byte. -/
theorem sigMatchesIff (buffer s : List Nat) :
    sigMatches buffer s = true ↔ buffer.take s.length = s := by
  have h := sigMatchesAuxIff s 0 buffer
  rwa [List.drop_zero] at h

/-- The signature-set matcher succeeds iff some member signature is the
buffer's prefix byte-for-byte. -/
theorem checkFileSignatureIff (buffer : List Nat) (signatures : List (List Nat)) :
    checkFileSignature buffer signatures = true ↔
      ∃ s, s ∈ signatures ∧ buffer.take s.length = s := by
  simp only [checkFileSignature, List.any_eq_true, sigMatchesIff]

/-- Success of the matcher transfers along a permutation of the candidates. -/
theorem checkFileSignatureOfPerm {signatures signatures' : List (List Nat)}
    (buffer : List Nat) (hp : signatures.Perm signatures')
    (h : checkFileSignature buffer signatures = true) :
    checkFileSignature buffer signatures' = true := by
  rw [checkFileSignatureIff] at h ⊢
  obtain ⟨s, hs, hts⟩ := h
  exact ⟨s, hp.mem_iff.mp hs, hts⟩

/-! ### Helper lemmas: the PDF scan loop -/

/-- Whitelisted rules are skipped entirely: the loop computes the same result
as the loop over the rule list with every whitelisted rule erased. -/
theorem pdfScanListFilter :
    ∀ (rules : List PdfPatternRule) (buffer : List Nat) (wl : List String),
      pdfScanList rules buffer wl =
        pdfScanList (rules.filter fun pr => decide (pr.name ∉ wl)) buffer wl := by
  intro rules buffer wl
  induction rules with
  | nil => rfl
  | cons pr rest ih =>
    by_cases h : pr.name ∈ wl
    · simp [pdfScanList, List.filter_cons, h, ih]
    · by_cases ht : ruleTest pr.pattern buffer = true
      · simp [pdfScanList, List.filter_cons, h, ht]
      · simp [pdfScanList, List.filter_cons, h, ht, ih]

/-- The loop passes (finds nothing) iff no non-whitelisted rule matches. -/
theorem pdfScanListNoneIff :
    ∀ (rules : List PdfPatternRule) (buffer : List Nat) (wl : List String),
      pdfScanList rules buffer wl = none ↔
        ∀ pr, pr ∈ rules → pr.name ∉ wl → ruleTest pr.pattern buffer = false := by
  intro rules buffer wl
  induction rules with
  | nil => simp [pdfScanList]
  | cons pr rest ih =>
    by_cases h : pr.name ∈ wl
    · simp only [pdfScanList, if_pos h, ih]
      constructor
      · intro H q hq hnq
        rcases List.mem_cons.mp hq with rfl | hq'
        · exact absurd h hnq
        · exact H q hq' hnq
      · intro H q hq hnq
        exact H q (List.mem_cons_of_mem _ hq) hnq
    · by_cases ht : ruleTest pr.pattern buffer = true
      · simp only [pdfScanList, if_neg h, if_pos ht]
        constructor
        · intro H; exact absurd H (by simp)
        · intro H
          have := H pr (List.mem_cons_self _ _) h
          rw [ht] at this
          exact absurd this (by simp)
      · simp only [pdfScanList, if_neg h, if_neg ht, ih]
        constructor
        · intro H q hq hnq
          rcases List.mem_cons.mp hq with rfl | hq'
          · exact Bool.eq_false_iff.mpr ht
          · exact H q hq' hnq
        · intro H q hq hnq
          exact H q (List.mem_cons_of_mem _ hq) hnq

/-- A failure produced by the loop names the matched rule's pattern. -/
theorem pdfScanListSome :
    ∀ (rules : List PdfPatternRule) (buffer : List Nat) (wl : List String) (m : String),
      pdfScanList rules buffer wl = some m →
        ∃ pr, pr ∈ rules ∧ pr.name ∉ wl ∧ ruleTest pr.pattern buffer = true ∧
          m = "Suspicious PDF pattern detected: " ++ pr.pattern.display := by
  intro rules buffer wl
  induction rules with
  | nil => intro m h; exact absurd h (by simp [pdfScanList])
  | cons pr rest ih =>
    intro m h
    by_cases hw : pr.name ∈ wl
    · rw [pdfScanList, if_pos hw] at h
      obtain ⟨q, hq, h1, h2, h3⟩ := ih m h
      exact ⟨q, List.mem_cons_of_mem _ hq, h1, h2, h3⟩
    · by_cases ht : ruleTest pr.pattern buffer = true
      · rw [pdfScanList, if_neg hw, if_pos ht] at h
        injection h with h
        exact ⟨pr, List.mem_cons_self _ _, hw, ht, h.symm⟩
      · rw [pdfScanList, if_neg hw, if_neg ht] at h
        obtain ⟨q, hq, h1, h2, h3⟩ := ih m h
        exact ⟨q, List.mem_cons_of_mem _ hq, h1, h2, h3⟩

/-! ### Helper lemmas: generic scan and the base64 round trip -/

/-- If the round-tripped view is the buffer itself, testing both views is
testing one. -/
theorem genericScanListEqDirect :
    ∀ (rules : List PatternRule) (buffer : List Nat),
      decodedView buffer = buffer →
        genericScanList rules buffer = genericScanListDirect rules buffer := by
  intro rules buffer h
  induction rules with
  | nil => rfl
  | cons r rs ih =>
    simp only [genericScanList, genericScanListDirect, h, Bool.or_self, ih]

/-- Decoding inverts encoding on each sextet value. -/
theorem b64ValOfCharOf : ∀ n, n < 64 → b64ValOf (b64CharOf n) = n := by decide

/-- The base64 alphabet never contains the padding byte `=` (61). -/
theorem b64CharOfNePad : ∀ n, n < 64 → b64CharOf n ≠ 61 := by decide

/-- `Buffer.from(buffer.toString("base64"), "base64")` is the identity on
byte sequences. -/
theorem b64RoundTrip : ∀ (buffer : List Nat), (∀ x ∈ buffer, x < 256) →
    b64decode (b64encode buffer) = buffer
  | [] => fun _ => rfl
  | [b1] => fun h => by
      have h1 : b1 < 256 := h b1 (by simp)
      simp only [b64encode, b64decode]
      rw [if_pos trivial]
      rw [b64ValOfCharOf _ (by omega), b64ValOfCharOf _ (by omega)]
      have e1 : b1 / 4 * 4 + b1 % 4 * 16 / 16 = b1 := by omega
      rw [e1]
  | [b1, b2] => fun h => by
      have h1 : b1 < 256 := h b1 (by simp)
      have h2 : b2 < 256 := h b2 (by simp)
      simp only [b64encode, b64decode]
      rw [if_neg (b64CharOfNePad _ (by omega))]
      rw [if_pos trivial]
      rw [b64ValOfCharOf _ (by omega), b64ValOfCharOf _ (by omega),
          b64ValOfCharOf _ (by omega)]
      have e1 : b1 / 4 * 4 + (b1 % 4 * 16 + b2 / 16) / 16 = b1 := by omega
      have e2 : (b1 % 4 * 16 + b2 / 16) % 16 * 16 + b2 % 16 * 4 / 4 = b2 := by omega
      rw [e1, e2]
  | b1 :: b2 :: b3 :: rest => fun h => by
      have h1 : b1 < 256 := h b1 (by simp)
      have h2 : b2 < 256 := h b2 (by simp)
      have h3 : b3 < 256 := h b3 (by simp)
      have ih := b64RoundTrip rest fun x hx => h x (by simp [hx])
      simp only [b64encode, b64decode]
      rw [if_neg (b64CharOfNePad _ (by omega))]
      rw [if_neg (b64CharOfNePad _ (by omega))]
      rw [b64ValOfCharOf _ (by omega), b64ValOfCharOf _ (by omega),
          b64ValOfCharOf _ (by omega), b64ValOfCharOf _ (by omega)]
      rw [ih]
      have e1 : b1 / 4 * 4 + (b1 % 4 * 16 + b2 / 16) / 16 = b1 := by omega
      have e2 : (b1 % 4 * 16 + b2 / 16) % 16 * 16 + (b2 % 16 * 4 + b3 / 64) / 4 = b2 := by
        omega
      have e3 : (b2 % 16 * 4 + b3 / 64) % 4 * 64 + b3 % 64 = b3 := by omega
      rw [e1, e2, e3]

/-! ### Claim theorems -/

/-- C8: for every signature and every buffer shorter than it, the
byte-by-byte comparison is total and simply yields false — `buffer[index]`
on a too-short buffer is `undefined`, never an out-of-bounds fault — and a
set all of whose signatures are longer than the buffer cannot match. -/
theorem shortBufferNeverMatches (s b : List Nat) (hb : b.length < s.length) :
    sigMatches b s = false ∧
    ∀ signatures : List (List Nat), s ∈ signatures →
      (∀ s' ∈ signatures, b.length < s'.length) →
      checkFileSignature b signatures = false := by
  have key : ∀ s' : List Nat, b.length < s'.length → sigMatches b s' = false := by
    intro s' hlt
    cases hm : sigMatches b s' with
    | false => rfl
    | true =>
      have htake := (sigMatchesIff b s').mp hm
      have hlen := congrArg List.length htake
      rw [List.length_take] at hlen
      omega
  refine ⟨key s hb, ?_⟩
  intro signatures _ hall
  cases hc : checkFileSignature b signatures with
  | false => rfl
  | true =>
    obtain ⟨s', hs', hts'⟩ := (checkFileSignatureIff b signatures).mp hc
    have := key s' (hall s' hs')
    rw [(sigMatchesIff b s').mpr hts'] at this
    exact absurd this (by simp)

/-- C8 witness: a one-byte buffer against the four-byte PDF signature. -/
theorem shortBufferNeverMatches_witness :
    sigMatches [0x25] [0x25, 0x50, 0x44, 0x46] = false ∧
    checkFileSignature [0x25] FILE_SIGNATURES_PDF = false := by
  have h := shortBufferNeverMatches [0x25, 0x50, 0x44, 0x46] [0x25] (by decide)
  exact ⟨h.1, h.2 FILE_SIGNATURES_PDF (by decide)
    (by intro s' hs'; fin_cases hs'; decide)⟩

/-- C9: `checkFileSignature` succeeds iff at least one candidate signature is
the buffer's prefix byte-for-byte, and the result is invariant under any
permutation of the candidate list. -/
theorem checkFileSignatureSpec (b : List Nat) (signatures signatures' : List (List Nat))
    (hp : signatures.Perm signatures') :
    (checkFileSignature b signatures = true ↔
      ∃ s, s ∈ signatures ∧ b.take s.length = s) ∧
    checkFileSignature b signatures = checkFileSignature b signatures' := by
  refine ⟨checkFileSignatureIff b signatures, ?_⟩
  cases hc : checkFileSignature b signatures with
  | true => exact (checkFileSignatureOfPerm b hp hc).symm
  | false =>
    cases hc' : checkFileSignature b signatures' with
    | false => rfl
    | true =>
      have := checkFileSignatureOfPerm b hp.symm hc'
      rw [hc] at this
      exact absurd this (by simp)

/-- C9 witness: the two JPEG signatures in both orders against a JFIF
prefix. -/
theorem checkFileSignatureSpec_witness :
    checkFileSignature [0xff, 0xd8, 0xff, 0xe0, 0x10] FILE_SIGNATURES_JPEG =
      checkFileSignature [0xff, 0xd8, 0xff, 0xe0, 0x10]
        [[0xff, 0xd8, 0xff, 0xe1], [0xff, 0xd8, 0xff, 0xe0]] ∧
    checkFileSignature [0xff, 0xd8, 0xff, 0xe0, 0x10] FILE_SIGNATURES_JPEG = true := by
  have h := checkFileSignatureSpec [0xff, 0xd8, 0xff, 0xe0, 0x10] FILE_SIGNATURES_JPEG
    [[0xff, 0xd8, 0xff, 0xe1], [0xff, 0xd8, 0xff, 0xe0]] (by decide)
  exact ⟨h.2, h.1.mpr ⟨[0xff, 0xd8, 0xff, 0xe0], by decide, by decide⟩⟩

/-- C10: the base64 encode-then-decode round trip is the identity on the
byte sequence, so the generic-rule scan over both textual views computes
exactly the single-view scan. -/
theorem base64RoundTripScanEquiv (buffer : List Nat) (h : ∀ x ∈ buffer, x < 256) :
    decodedView buffer = buffer ∧
    genericScanList suspiciousPatterns buffer =
      genericScanListDirect suspiciousPatterns buffer := by
  have hid : decodedView buffer = buffer := b64RoundTrip buffer h
  exact ⟨hid, genericScanListEqDirect suspiciousPatterns buffer hid⟩

/-- C10 witness: a concrete non-aligned buffer. -/
theorem base64RoundTripScanEquiv_witness :
    decodedView [0, 1, 255, 60] = [0, 1, 255, 60] ∧
    genericScanList suspiciousPatterns [0, 1, 255, 60] =
      genericScanListDirect suspiciousPatterns [0, 1, 255, 60] :=
  base64RoundTripScanEquiv [0, 1, 255, 60] (by decide)

/-- C3: the pipeline is a total function into verdicts — no fault unwinds
past `validateFile`/`validateFileContent` — and any internal fault (a failed
`fs.stat` or `fs.readFile`, the source's only fallible steps) is caught and
converted into a failing verdict carrying the fault's description. -/
theorem pipelineNeverThrows (statResult : Except String Nat)
    (readResult : Except String (List Nat)) (ext : String) (opts : Options) :
    (∃ v : Verdict, validateFileJS statResult readResult ext opts = v) ∧
    (∀ e, statResult = Except.error e →
      validateFileJS statResult readResult ext opts =
        ⟨false, "File validation failed: " ++ e⟩) ∧
    (∀ e, readResult = Except.error e →
      validateFileContentJS readResult ext opts =
        ⟨false, "Content validation failed: " ++ e⟩) := by
  refine ⟨⟨_, rfl⟩, ?_, ?_⟩
  · rintro e rfl
    rfl
  · rintro e rfl
    rfl

/-- C3 witness: concrete faults at both boundaries become failing verdicts
carrying the fault description. -/
theorem pipelineNeverThrows_witness :
    validateFileJS (Except.error "ENOENT") (Except.ok []) ".pdf" ⟨none, none⟩ =
      ⟨false, "File validation failed: ENOENT"⟩ ∧
    validateFileContentJS (Except.error "text decode fault") ".svg" ⟨none, none⟩ =
      ⟨false, "Content validation failed: text decode fault"⟩ :=
  ⟨(pipelineNeverThrows (Except.error "ENOENT") (Except.ok []) ".pdf" ⟨none, none⟩).2.1
      "ENOENT" rfl,
   (pipelineNeverThrows (Except.ok 0) (Except.error "text decode fault") ".svg"
      ⟨none, none⟩).2.2 "text decode fault" rfl⟩

/-- C4: whitelisted PDF rules are skipped entirely (the loop equals the loop
over the whitelist-filtered rule list); a failure names the matched pattern;
after adding `X` to the whitelist a failing buffer passes iff no other
non-whitelisted rule matches; and, at verdict level, a PDF buffer that
survived the signature stage and the generic scan passes iff the PDF loop
finds nothing. -/
theorem pdfWhitelistSpec (buffer : List Nat) (wl : List String) (X : String)
    (mo : Option Nat) :
    pdfScanList pdfSuspiciousPatterns buffer wl =
      pdfScanList (pdfSuspiciousPatterns.filter fun pr => decide (pr.name ∉ wl))
        buffer wl ∧
    (∀ m, pdfScanList pdfSuspiciousPatterns buffer wl = some m →
      ∃ pr, pr ∈ pdfSuspiciousPatterns ∧ pr.name ∉ wl ∧
        ruleTest pr.pattern buffer = true ∧
        m = "Suspicious PDF pattern detected: " ++ pr.pattern.display) ∧
    (pdfScanList pdfSuspiciousPatterns buffer wl ≠ none →
      (pdfScanList pdfSuspiciousPatterns buffer (X :: wl) = none ↔
        ∀ pr, pr ∈ pdfSuspiciousPatterns → pr.name ∉ wl → pr.name ≠ X →
          ruleTest pr.pattern buffer = false)) ∧
    (sigValidFor buffer ".pdf" = some true →
      genericScanList suspiciousPatterns buffer = none →
      ((validateFileContentCore buffer ".pdf" ⟨mo, some wl⟩).status = true ↔
        pdfScanList pdfSuspiciousPatterns buffer wl = none)) := by
  refine ⟨pdfScanListFilter _ _ _, pdfScanListSome _ _ _, ?_, ?_⟩
  · intro _
    rw [pdfScanListNoneIff]
    constructor
    · intro H pr hpr hnw hne
      refine H pr hpr ?_
      intro hmem
      rcases List.mem_cons.mp hmem with hx | hw
      · exact hne hx
      · exact hnw hw
    · intro H pr hpr hnw
      by_cases hx : pr.name = X
      · exact absurd (List.mem_cons_self _ _) (hx ▸ hnw)
      · exact H pr hpr (fun hw => hnw (List.mem_cons_of_mem _ hw)) hx
  · intro h1 h2
    simp only [validateFileContentCore, h1, h2]
    cases hp : pdfScanList pdfSuspiciousPatterns buffer wl with
    | none => simp [hp]
    | some m => simp [hp]

/-- C4 witness: `/Metadata` fails with an empty whitelist and passes once
`Metadata` is whitelisted, at loop level and at verdict level. -/
theorem pdfWhitelistSpec_witness :
    pdfScanList pdfSuspiciousPatterns (asciiBytes "/Metadata") ("Metadata" :: []) =
      none ∧
    (validateFileContentCore (asciiBytes "%PDF-1.4 /Metadata %%EOF") ".pdf"
      ⟨none, some ["Metadata"]⟩).status = true := by
  constructor
  · exact ((pdfWhitelistSpec (asciiBytes "/Metadata") [] "Metadata" none).2.2.1
      (by decide)).mpr (by decide)
  · exact ((pdfWhitelistSpec (asciiBytes "%PDF-1.4 /Metadata %%EOF") ["Metadata"]
      "X" none).2.2.2 (by decide) (by decide)).mpr (by decide)

/-- C5: for a buffer declared `.pdf`, the type-specific validity value is
(signature matches) AND (text contains `%PDF-`) AND (text contains `%%EOF`);
a buffer missing the trailer is invalid even when its leading bytes match,
and an invalid value yields the "Invalid file signature detected" verdict. -/
theorem pdfValiditySpec (buffer : List Nat) (opts : Options) :
    sigValidFor buffer ".pdf" =
      some (checkFileSignature buffer FILE_SIGNATURES_PDF &&
        containsSub buffer (asciiBytes "%PDF-") &&
        containsSub buffer (asciiBytes "%%EOF")) ∧
    (sigValidFor buffer ".pdf" = some true ↔
      (checkFileSignature buffer FILE_SIGNATURES_PDF = true ∧
       containsSub buffer (asciiBytes "%PDF-") = true ∧
       containsSub buffer (asciiBytes "%%EOF") = true)) ∧
    (containsSub buffer (asciiBytes "%%EOF") = false →
      sigValidFor buffer ".pdf" = some false) ∧
    (sigValidFor buffer ".pdf" = some false →
      validateFileContentCore buffer ".pdf" opts =
        ⟨false, "Invalid file signature detected"⟩) := by
  have h1 : sigValidFor buffer ".pdf" =
      some (checkFileSignature buffer FILE_SIGNATURES_PDF &&
        containsSub buffer (asciiBytes "%PDF-") &&
        containsSub buffer (asciiBytes "%%EOF")) := rfl
  refine ⟨h1, ?_, ?_, ?_⟩
  · rw [h1]
    simp [Bool.and_eq_true, and_assoc]
  · intro h
    rw [h1, h]
    simp
  · intro h
    simp only [validateFileContentCore, h]

/-- C5 witness: a buffer with the `%PDF` magic and header but no `%%EOF`
trailer is invalid. -/
theorem pdfValiditySpec_witness :
    sigValidFor (asciiBytes "%PDF-1.4 body only") ".pdf" = some false ∧
    validateFileContentCore (asciiBytes "%PDF-1.4 body only") ".pdf" ⟨none, none⟩ =
      ⟨false, "Invalid file signature detected"⟩ := by
  have h := pdfValiditySpec (asciiBytes "%PDF-1.4 body only") ⟨none, none⟩
  have h3 := h.2.2.1 (by decide)
  exact ⟨h3, h.2.2.2 h3⟩

/-- C6: for a buffer declared `.svg`, the type-specific validity value is
(signature matches) OR (`<svg ...>` open tag present AND the trimmed text
starts with `<?xml` or `<svg`), and an invalid value yields the
"Invalid file signature detected" verdict. -/
theorem svgValiditySpec (buffer : List Nat) (opts : Options) :
    sigValidFor buffer ".svg" =
      some (checkFileSignature buffer FILE_SIGNATURES_SVG ||
        (hasSVGTag buffer && hasValidXML buffer)) ∧
    (sigValidFor buffer ".svg" = some true ↔
      (checkFileSignature buffer FILE_SIGNATURES_SVG = true ∨
       (hasSVGTag buffer = true ∧ hasValidXML buffer = true))) ∧
    (sigValidFor buffer ".svg" = some false →
      validateFileContentCore buffer ".svg" opts =
        ⟨false, "Invalid file signature detected"⟩) := by
  have h1 : sigValidFor buffer ".svg" =
      some (checkFileSignature buffer FILE_SIGNATURES_SVG ||
        (hasSVGTag buffer && hasValidXML buffer)) := rfl
  refine ⟨h1, ?_, ?_⟩
  · rw [h1]
    simp [Bool.or_eq_true, Bool.and_eq_true]
  · intro h
    simp only [validateFileContentCore, h]

/-- C6 witness: plain text with neither signature nor `<svg>` tag is
invalid as SVG; a signatureless `<svg>` document with a valid prologue is
valid. -/
theorem svgValiditySpec_witness :
    validateFileContentCore (asciiBytes "plain text") ".svg" ⟨none, none⟩ =
      ⟨false, "Invalid file signature detected"⟩ ∧
    sigValidFor (asciiBytes "  <svg width=\"3\"></svg>") ".svg" = some true := by
  constructor
  · exact (svgValiditySpec (asciiBytes "plain text") ⟨none, none⟩).2.2 (by decide)
  · exact (svgValiditySpec (asciiBytes "  <svg width=\"3\"></svg>")
      ⟨none, none⟩).2.1.mpr (Or.inr ⟨by decide, by decide⟩)

/-- Any over-limit size fails with the rounded limit in the message. -/
theorem validateFileSizeFail (size : Nat) (buffer : List Nat) (ext : String)
    (opts : Options) (h : size > opts.maxSizeInBytes.getD (5 * 1024 * 1024)) :
    validateFile size buffer ext opts =
      ⟨false, "File size exceeds limit of " ++
        toString ((opts.maxSizeInBytes.getD (5 * 1024 * 1024) + 524288) / 1048576) ++
        "MB"⟩ := by
  simp only [validateFile, validateFileJS]
  rw [if_pos h]

/-- Any size within the limit reaches the post-size stages unchanged. -/
theorem validateFileSizePass (size : Nat) (buffer : List Nat) (ext : String)
    (opts : Options) (h : size ≤ opts.maxSizeInBytes.getD (5 * 1024 * 1024)) :
    validateFile size buffer ext opts = postSizeStage (Except.ok buffer) ext opts := by
  simp only [validateFile, validateFileJS]
  rw [if_neg (Nat.not_lt.mpr h)]

/-- C7: a file of exactly `maxSizeInBytes` passes the size stage, one of
`maxSizeInBytes + 1` fails it with the configured limit in the message, and
a 6 MiB file under default options fails with a message containing "5MB". -/
theorem sizeLimitBoundary (m : Nat) (buffer : List Nat) (ext : String)
    (wl : Option (List String)) :
    validateFile m buffer ext ⟨some m, wl⟩ =
      postSizeStage (Except.ok buffer) ext ⟨some m, wl⟩ ∧
    validateFile (m + 1) buffer ext ⟨some m, wl⟩ =
      ⟨false, "File size exceeds limit of " ++ toString ((m + 524288) / 1048576) ++
        "MB"⟩ ∧
    validateFile (6 * 1024 * 1024) buffer ext ⟨none, wl⟩ =
      ⟨false, "File size exceeds limit of 5MB"⟩ ∧
    containsSub (asciiBytes "File size exceeds limit of 5MB") (asciiBytes "5MB") =
      true := by
  refine ⟨validateFileSizePass m buffer ext ⟨some m, wl⟩ le_rfl,
    validateFileSizeFail (m + 1) buffer ext ⟨some m, wl⟩ (Nat.lt_succ_self m),
    ?_, by decide⟩
  have hgd : (({ maxSizeInBytes := none, pdfWhitelist := wl } : Options)).maxSizeInBytes.getD
      (5 * 1024 * 1024) = 5 * 1024 * 1024 := rfl
  have h := validateFileSizeFail (6 * 1024 * 1024) buffer ext ⟨none, wl⟩
    (by rw [hgd]; decide)
  rw [h, hgd]
  decide

/-- C1 (amended): an extension outside the supported set yields the failing
verdicts "Unsupported file type" (content stage) and "Invalid file
extension" (orchestrator) — ordinary `{status:false}` verdicts, not thrown
errors. -/
theorem unknownTypeFailsClosed (buffer : List Nat) (ext : String) (opts : Options)
    (size : Nat) (h : ext ∉ allowedExtensions)
    (hsize : size ≤ opts.maxSizeInBytes.getD (5 * 1024 * 1024)) :
    validateFileContentCore buffer ext opts = ⟨false, "Unsupported file type"⟩ ∧
    validateFile size buffer ext opts = ⟨false, "Invalid file extension"⟩ := by
  have hjpg : ¬(ext = ".jpg" ∨ ext = ".jpeg") := by
    rintro (rfl | rfl)
    · exact h (by decide)
    · exact h (by decide)
  have hpng : ¬ext = ".png" := fun e => h (by rw [e]; decide)
  have hgif : ¬ext = ".gif" := fun e => h (by rw [e]; decide)
  have hsvg : ¬ext = ".svg" := fun e => h (by rw [e]; decide)
  have hpdf : ¬ext = ".pdf" := fun e => h (by rw [e]; decide)
  have hs : sigValidFor buffer ext = none := by
    rw [sigValidFor, if_neg hjpg, if_neg hpng, if_neg hgif, if_neg hsvg, if_neg hpdf]
  constructor
  · simp only [validateFileContentCore, hs]
  · rw [validateFileSizePass size buffer ext opts hsize, postSizeStage, if_neg h]

/-- C1 (amended) witness. -/
theorem unknownTypeFailsClosed_witness :
    validateFileContentCore (asciiBytes "hello") ".xyz" ⟨none, none⟩ =
      ⟨false, "Unsupported file type"⟩ ∧
    validateFile 5 (asciiBytes "hello") ".xyz" ⟨none, none⟩ =
      ⟨false, "Invalid file extension"⟩ :=
  unknownTypeFailsClosed (asciiBytes "hello") ".xyz" ⟨none, none⟩ 5
    (by decide) (by decide)

/-- C1 counterexample: an unknown declared type produces an ordinary
`{status:false}` verdict — the code returns a Verdict, it does not raise a
distinct `UnsupportedType` error. -/
theorem unsupportedTypeIsVerdict :
    validateFileContentCore (asciiBytes "data") ".unknownformat" ⟨none, none⟩ =
      ⟨false, "Unsupported file type"⟩ ∧
    (validateFileContentCore (asciiBytes "data") ".unknownformat"
      ⟨none, none⟩).status = false :=
  ⟨by decide, by decide⟩

/-- C2 (amended): every generic and SVG rule is case-insensitive (its result
is invariant under ASCII case changes of the text); every rule of all three
corpora searches for presence anywhere in the text; but the PDF rules carry
no `/i` flag. -/
theorem scannerRuleCaseAndPresence :
    (∀ r, r ∈ suspiciousPatterns ++ svgSuspiciousPatterns → ∀ t t' : List Nat,
      lowerBytes t = lowerBytes t' → ruleTest r t = ruleTest r t') ∧
    (∀ (r : PatternRule) (u t v : List Nat),
      ruleTest r t = true → ruleTest r (u ++ t ++ v) = true) ∧
    (∀ pr, pr ∈ pdfSuspiciousPatterns → pr.pattern.ci = false) := by
  refine ⟨?_, fun r u t v h => ruleTestInfix r u t v h, ?_⟩
  · intro r hr t t' hl
    have hci : r.ci = true := by fin_cases hr <;> rfl
    exact ruleTestCiCongr r hci t t' hl
  · intro pr hpr
    fin_cases hpr <;> rfl

/-- C2 (amended) witness: the `<script` rule is case-blind, and a match
inside a larger text is still found. -/
theorem scannerRuleCaseAndPresence_witness :
    ruleTest genericRuleScript (asciiBytes "<SCRIPT") =
      ruleTest genericRuleScript (asciiBytes "<script") ∧
    ruleTest genericRuleScript (asciiBytes "abc<script>def") = true := by
  constructor
  · exact scannerRuleCaseAndPresence.1 genericRuleScript
      (List.mem_append_left _ (List.mem_cons_self _ _))
      (asciiBytes "<SCRIPT") (asciiBytes "<script") (by decide)
  · have h := scannerRuleCaseAndPresence.2.1 genericRuleScript
      (asciiBytes "abc") (asciiBytes "<script") (asciiBytes ">def") (by decide)
    have he : asciiBytes "abc" ++ asciiBytes "<script" ++ asciiBytes ">def" =
        asciiBytes "abc<script>def" := by decide
    rwa [he] at h

/-- C2 counterexample: the PDF rule `/OpenAction/` has no `/i` flag — it
matches `OpenAction` but not `openaction`, two texts differing only in
letter case, and the PDF scan loop diverges accordingly. -/
theorem pdfRuleCaseSensitiveCounterexample :
    lowerBytes (asciiBytes "OpenAction") = lowerBytes (asciiBytes "openaction") ∧
    ruleTest pdfRuleOpenAction.pattern (asciiBytes "OpenAction") = true ∧
    ruleTest pdfRuleOpenAction.pattern (asciiBytes "openaction") = false ∧
    pdfScanList pdfSuspiciousPatterns (asciiBytes "OpenAction") [] =
      some "Suspicious PDF pattern detected: /OpenAction/" ∧
    pdfScanList pdfSuspiciousPatterns (asciiBytes "openaction") [] = none :=
  ⟨by decide, by decide, by decide, by decide, by decide⟩

end SecureFileValidator
